import Mathlib

/-!
Shallow embedding of the `bath-hack-25` desktop-companion state machine
(`src/bonnie.rs`, `src/plugins/bonnie_state.rs`).

Rust `u32` arithmetic is modelled on `Nat` with explicit wrapping
(`% 2^32`) where the source can overflow; draws from `rand` are modelled
by an abstract stream of naturals (`Rng`), with `random_range` on an
empty range returning `none` (the rand crate panics there), and
`IteratorRandom::choose` picking an arbitrary supported index.
Fallible frame systems return `Option` (`none` = panic via `expect`).
-/

namespace BonnieSpec

/-- `IVec2` from glam/bevy: a pair of 32-bit signed integers, modelled on `ℤ`. -/
abbrev IVec2 := ℤ × ℤ

----------------------------------------------------------------
-- States (src/plugins/bonnie_state.rs, `enum BonnieState` lines 61-73)
----------------------------------------------------------------

/-- `BonnieState` (bonnie_state.rs lines 61-73): the tagged state of the actor.
Only `Walking` carries data (its target coordinate). -/
inductive BonnieState where
  | Idle : BonnieState
  | Walking : IVec2 → BonnieState
  | Pooping : BonnieState
  | Chasing : BonnieState
  | Teaching : BonnieState
  | Meowing : BonnieState
  | Bird : BonnieState
  | Scratch : BonnieState
deriving DecidableEq, Repr

/-- `BonnieStateDiscriminants`, generated by `strum::EnumDiscriminants`:
the payload-free variant kinds of `BonnieState`. -/
inductive Disc where
  | Idle | Walking | Pooping | Chasing | Teaching | Meowing | Bird | Scratch
deriving DecidableEq, Repr

/-- `BonnieStateDiscriminants::from(&BonnieState)`: the variant kind of a state. -/
def disc : BonnieState → Disc
  | .Idle => .Idle
  | .Walking _ => .Walking
  | .Pooping => .Pooping
  | .Chasing => .Chasing
  | .Teaching => .Teaching
  | .Meowing => .Meowing
  | .Bird => .Bird
  | .Scratch => .Scratch

/-- `impl From<BonnieStateDiscriminants> for BonnieState` (lines 75-88):
`Walking` gets the `IVec2::ZERO` placeholder payload. -/
def fromDisc : Disc → BonnieState
  | .Idle => .Idle
  | .Walking => .Walking (0, 0)
  | .Pooping => .Pooping
  | .Chasing => .Chasing
  | .Teaching => .Teaching
  | .Meowing => .Meowing
  | .Bird => .Bird
  | .Scratch => .Scratch

/-- `BonnieStateDiscriminants::iter()` (strum `EnumIter`): all variant kinds
in declaration order. -/
def allDiscs : List Disc :=
  [.Idle, .Walking, .Pooping, .Chasing, .Teaching, .Meowing, .Bird, .Scratch]

----------------------------------------------------------------
-- Randomness model
----------------------------------------------------------------

/-- Abstract model of a `rand::Rng`: an infinite stream of raw natural draws
plus a cursor.  Quantifying over `Rng` quantifies over every randomness
source; each primitive consumes one draw. -/
structure Rng where
  stream : Nat → Nat
  idx : Nat

/-- Consume one raw draw. -/
def Rng.next (r : Rng) : Nat × Rng :=
  (r.stream r.idx, { r with idx := r.idx + 1 })

/-- `IteratorRandom::choose`: `none` on an empty collection, otherwise some
element of the list (the raw draw reduced mod the length, so every index is
in the support). -/
def chooseList {α : Type} (l : List α) (r : Rng) : Option (α × Rng) :=
  match h : l.length with
  | 0 => none
  | n + 1 =>
    let (k, r') := r.next
    some (l.get ⟨k % l.length, by rw [h]; exact Nat.mod_lt _ (Nat.succ_pos n)⟩, r')

/-- `Rng::random_range(lo..hi)` on integers: the rand crate panics on an
empty range (`none` here); otherwise returns a value in `[lo, hi)`. -/
def randomRangeNat (lo hi : Nat) (r : Rng) : Option (Nat × Rng) :=
  if hi ≤ lo then none
  else
    let (k, r') := r.next
    some (lo + k % (hi - lo), r')

/-- `Rng::random_range(lo..hi)` on `f32`, modelled over `ℚ`: panics on an
empty range, otherwise a value in `[lo, hi)` (draw reduced to a fraction in
`[0,1)`). -/
def randomRangeRat (lo hi : ℚ) (r : Rng) : Option (ℚ × Rng) :=
  if hi ≤ lo then none
  else
    let (k, r') := r.next
    some (lo + (hi - lo) * ((k % 1024 : ℕ) : ℚ) / 1024, r')

/-- Wrapping `u32` subtraction (release-mode `a - b`). -/
def wsub32 (a b : Nat) : Nat := (a + 2 ^ 32 - b % 2 ^ 32) % 2 ^ 32

/-- `as i32` on an (already `% 2^32`-reduced) unsigned value. -/
def toI32 (n : Nat) : ℤ := ((n : ℤ) + 2 ^ 31) % 2 ^ 32 - 2 ^ 31

----------------------------------------------------------------
-- Timer / Gate (bevy `Timer` in `TimerMode::Once`, plus
-- `StateMachine` from src/bonnie.rs lines 17-35)
----------------------------------------------------------------

/-- Bevy `Timer` in `TimerMode::Once`, modelled with exact rationals:
a configured duration and the time elapsed so far (clamped at the
duration). -/
structure Timer where
  duration : ℚ
  elapsed : ℚ
deriving DecidableEq, Repr

/-- `Timer::tick(delta)`: advance, clamping `elapsed` at `duration`. -/
def Timer.tick (t : Timer) (delta : ℚ) : Timer :=
  { t with elapsed := if t.elapsed + delta ≤ t.duration then t.elapsed + delta
                      else t.duration }

/-- `Timer::finished()`. -/
def Timer.fin (t : Timer) : Bool := t.duration ≤ t.elapsed

/-- `Timer::remaining()`. -/
def Timer.remaining (t : Timer) : ℚ := t.duration - t.elapsed

/-- `Timer::reset()`. -/
def Timer.reset (t : Timer) : Timer := { t with elapsed := 0 }

/-- `Timer::set_duration(d)`. -/
def Timer.set_duration (t : Timer) (d : ℚ) : Timer := { t with duration := d }

/-- `StateMachine` (src/bonnie.rs lines 17-21): the per-actor countdown
timer plus the `can_change` gate. -/
structure StateMachine where
  timer : Timer
  can_change : Bool
deriving DecidableEq, Repr

/-- `StateMachine::block` (bonnie.rs lines 24-26). -/
def StateMachine.block (m : StateMachine) : StateMachine :=
  { m with can_change := false }

/-- `StateMachine::unblock` (bonnie.rs lines 28-30). -/
def StateMachine.unblock (m : StateMachine) : StateMachine :=
  { m with can_change := true }

/-- `StateMachine::toggle_block` (bonnie.rs lines 32-34). -/
def StateMachine.toggle_block (m : StateMachine) : StateMachine :=
  { m with can_change := !m.can_change }

/-- Modelled from the spec: `StateMachine::finish` is called throughout
`bonnie_state.rs` but its definition is not under `src/` (only the
`block`/`unblock`/`toggle_block` methods are, in `bonnie.rs`).  Spec §4.1:
"`finish()`: atomically sets remaining duration to zero AND
`can_change = true`".  Setting `elapsed := duration` makes the remaining
duration zero while keeping the configured duration. -/
def StateMachine.finish (m : StateMachine) : StateMachine :=
  { timer := { m.timer with elapsed := m.timer.duration }, can_change := true }

----------------------------------------------------------------
-- State selector (`random_state`, bonnie_state.rs lines 181-232)
----------------------------------------------------------------

/-- `WINDOW_SIZE_BUFFER` (bonnie_state.rs line 32). -/
def WINDOW_SIZE_BUFFER : Nat := 200

/-- The stage-1 `Walking` placeholder draw (lines 191-196): one coordinate
per axis from `WINDOW_SIZE_BUFFER..(dim - WINDOW_SIZE_BUFFER)` (wrapping
`u32` subtraction; the draw panics when the range is empty). -/
def walkDraw (w h : Nat) (r : Rng) : Option (IVec2 × Rng) :=
  (randomRangeNat WINDOW_SIZE_BUFFER (wsub32 w WINDOW_SIZE_BUFFER) r).bind fun xr =>
  (randomRangeNat WINDOW_SIZE_BUFFER (wsub32 h WINDOW_SIZE_BUFFER) xr.2).bind fun yr =>
  some ((toI32 xr.1, toI32 yr.1), yr.2)

/-- First stage of `random_state` (lines 186-199): choose a discriminant
other than the current one (`map_or` default `Idle` when `choose` yields
nothing); a chosen `Walking` draws its placeholder target via `walkDraw`. -/
def randomStateStage1 (current : BonnieState) (r : Rng) (w h : Nat) :
    Option (BonnieState × Rng) :=
  match chooseList (allDiscs.filter (fun d => d ≠ disc current)) r with
  | none => some (BonnieState.Idle, r)
  | some (d, r) =>
    match d with
    | .Walking => (walkDraw w h r).bind fun vr => some (BonnieState.Walking vr.1, vr.2)
    | _ => some (fromDisc d, r)

/-- One axis of the stage-2 walk-target draw (lines 204-218): from
`[150, dim - 150)` (saturating `u32` subtraction) when `x_max > x_min`,
else, on very small screens, from the full `[0, dim)` range. -/
def walkCoord (dim : Nat) (r : Rng) : Option (Nat × Rng) :=
  let lo := 150
  let hi := dim - 150
  if lo < hi then randomRangeNat lo hi r else randomRangeNat 0 dim r

/-- Second stage of `random_state` (lines 201-223): a `Walking` result has
its target redrawn, one `walkCoord` draw per axis; other states pass
through unchanged. -/
def randomStateStage2 (st : BonnieState) (r : Rng) (w h : Nat) :
    Option (BonnieState × Rng) :=
  match st with
  | .Walking _ =>
    (walkCoord w r).bind fun xr =>
    (walkCoord h xr.2).bind fun yr =>
    some (BonnieState.Walking ((xr.1 : ℤ), (yr.1 : ℤ)), yr.2)
  | _ => some (st, r)

/-- `random_state` (bonnie_state.rs lines 181-232): the state selector.
`none` models a panic of `random_range` on an empty range. -/
def random_state (current : BonnieState) (r : Rng) (w h : Nat) :
    Option (BonnieState × Rng) :=
  (randomStateStage1 current r w h).bind fun sr =>
  randomStateStage2 sr.1 sr.2 w h

end BonnieSpec

namespace BonnieSpec

----------------------------------------------------------------
-- Helper lemmas about the state selector
----------------------------------------------------------------

theorem chooseList_mem {α : Type} {l : List α} {r r' : Rng} {a : α}
    (h : chooseList l r = some (a, r')) : a ∈ l := by
  unfold chooseList at h
  split at h
  · exact absurd h (by simp)
  · simp only [Option.some.injEq, Prod.mk.injEq] at h
    rw [← h.1]
    exact List.get_mem _ _ _

theorem chooseList_isSome {α : Type} {l : List α} (r : Rng) (hl : l ≠ []) :
    (chooseList l r).isSome := by
  unfold chooseList
  split
  · exact absurd (List.length_eq_zero.mp (by assumption)) hl
  · simp

theorem filter_ne_ne_nil (d : Disc) :
    allDiscs.filter (fun x => x ≠ d) ≠ [] := by
  cases d <;> decide

theorem filter_ne_disc_ne_nil (s : BonnieState) :
    allDiscs.filter (fun x => x ≠ disc s) ≠ [] :=
  filter_ne_ne_nil (disc s)

theorem disc_fromDisc (d : Disc) : disc (fromDisc d) = d := by
  cases d <;> rfl

theorem randomStateStage1_disc {s st : BonnieState} {r r' : Rng} {w h : Nat}
    (hst : randomStateStage1 s r w h = some (st, r')) : disc st ≠ disc s := by
  unfold randomStateStage1 at hst
  rcases hc : chooseList (allDiscs.filter (fun d => d ≠ disc s)) r with _ | ⟨d, r₁⟩
  · have h2 := chooseList_isSome r (filter_ne_disc_ne_nil s)
    rw [hc] at h2
    exact absurd h2 (by simp)
  · have hmem : d ∈ allDiscs.filter (fun x => x ≠ disc s) := chooseList_mem hc
    have hd : d ≠ disc s := of_decide_eq_true (List.mem_filter.mp hmem).2
    rw [hc] at hst
    cases d with
    | Walking =>
      simp only at hst
      rcases Option.bind_eq_some.mp hst with ⟨⟨v, r₂⟩, hwd, hsome⟩
      simp only [Option.some.injEq, Prod.mk.injEq] at hsome
      rw [← hsome.1]
      exact hd
    | Idle =>
      simp only [Option.some.injEq, Prod.mk.injEq] at hst
      rw [← hst.1, disc_fromDisc]; exact hd
    | Pooping =>
      simp only [Option.some.injEq, Prod.mk.injEq] at hst
      rw [← hst.1, disc_fromDisc]; exact hd
    | Chasing =>
      simp only [Option.some.injEq, Prod.mk.injEq] at hst
      rw [← hst.1, disc_fromDisc]; exact hd
    | Teaching =>
      simp only [Option.some.injEq, Prod.mk.injEq] at hst
      rw [← hst.1, disc_fromDisc]; exact hd
    | Meowing =>
      simp only [Option.some.injEq, Prod.mk.injEq] at hst
      rw [← hst.1, disc_fromDisc]; exact hd
    | Bird =>
      simp only [Option.some.injEq, Prod.mk.injEq] at hst
      rw [← hst.1, disc_fromDisc]; exact hd
    | Scratch =>
      simp only [Option.some.injEq, Prod.mk.injEq] at hst
      rw [← hst.1, disc_fromDisc]; exact hd

theorem randomStateStage2_disc {st st' : BonnieState} {r r' : Rng} {w h : Nat}
    (hst : randomStateStage2 st r w h = some (st', r')) : disc st' = disc st := by
  cases st with
  | Walking v =>
    simp only [randomStateStage2] at hst
    rcases Option.bind_eq_some.mp hst with ⟨⟨x, r₂⟩, hx, hst2⟩
    rcases Option.bind_eq_some.mp hst2 with ⟨⟨y, r₃⟩, hy, hsome⟩
    simp only [Option.some.injEq, Prod.mk.injEq] at hsome
    rw [← hsome.1]
    rfl
  | Idle => simp only [randomStateStage2, Option.some.injEq, Prod.mk.injEq] at hst
            rw [← hst.1]
  | Pooping => simp only [randomStateStage2, Option.some.injEq, Prod.mk.injEq] at hst
               rw [← hst.1]
  | Chasing => simp only [randomStateStage2, Option.some.injEq, Prod.mk.injEq] at hst
               rw [← hst.1]
  | Teaching => simp only [randomStateStage2, Option.some.injEq, Prod.mk.injEq] at hst
                rw [← hst.1]
  | Meowing => simp only [randomStateStage2, Option.some.injEq, Prod.mk.injEq] at hst
               rw [← hst.1]
  | Bird => simp only [randomStateStage2, Option.some.injEq, Prod.mk.injEq] at hst
            rw [← hst.1]
  | Scratch => simp only [randomStateStage2, Option.some.injEq, Prod.mk.injEq] at hst
               rw [← hst.1]

/-- The result of `random_state`, when it returns, has a variant kind
different from the current state's. -/
theorem random_state_disc_ne {s st : BonnieState} {r r' : Rng} {w h : Nat}
    (hst : random_state s r w h = some (st, r')) : disc st ≠ disc s := by
  rcases Option.bind_eq_some.mp hst with ⟨⟨st1, r1⟩, h1, h2⟩
  rw [randomStateStage2_disc h2]
  exact randomStateStage1_disc h1

----------------------------------------------------------------
-- Geometry (glam Vec2 / IVec2 operations used by the movement code),
-- f32 arithmetic modelled over the reals
----------------------------------------------------------------

/-- glam `Vec2` (f32 pair), modelled over the reals. -/
abbrev Vec2 := ℝ × ℝ

/-- `IVec2::as_vec2()`. -/
def asVec2 (v : IVec2) : Vec2 := ((v.1 : ℝ), (v.2 : ℝ))

/-- `Vec2::length()`. -/
noncomputable def vlen (v : Vec2) : ℝ := Real.sqrt (v.1 ^ 2 + v.2 ^ 2)

/-- `Vec2::normalize()` (division by the length; a zero vector yields the
zero vector here, standing in for the non-finite value glam produces —
every use below either snaps before using it or multiplies it by zero). -/
noncomputable def vnormalize (v : Vec2) : Vec2 := (v.1 / vlen v, v.2 / vlen v)

/-- Scalar multiplication `v * c` on `Vec2`. -/
def vsmul (c : ℝ) (v : Vec2) : Vec2 := (c * v.1, c * v.2)

/-- Rust `f32::round`: round half away from zero. -/
noncomputable def rustRound (x : ℝ) : ℤ := if 0 ≤ x then ⌊x + 1 / 2⌋ else -⌊-x + 1 / 2⌋

/-- `Vec2::round().as_ivec2()`. -/
noncomputable def roundVec (v : Vec2) : IVec2 := (rustRound v.1, rustRound v.2)

/-- Rust `as i32` on a float: truncation toward zero. -/
noncomputable def truncI (x : ℝ) : ℤ := if 0 ≤ x then ⌊x⌋ else ⌈x⌉

/-- `calculate_movement_speed` (bonnie_state.rs lines 360-369): monitor
diagonal (wrapping `u32` squares/sum) times `0.15` times the per-state
multiplier. -/
noncomputable def calculate_movement_speed (w h : Nat) (state : BonnieState) : ℝ :=
  let diagonal := Real.sqrt (((w ^ 2 + h ^ 2) % 2 ^ 32 : ℕ) : ℝ)
  let base_speed : ℝ :=
    match state with
    | .Chasing => 2
    | .Teaching => 3
    | .Bird => 1.5
    | _ => 1
  diagonal * 0.15 * base_speed

/-- The steering step shared by `handle_movement` (lines 345-357) and
`handle_teaching` (lines 576-591): normalize the offset to the target,
scale by speed and elapsed time, snap to the target when the remaining
distance does not exceed the step length, else advance by the rounded
step. -/
noncomputable def movement_step (current target : IVec2) (speed dt : ℝ) : IVec2 :=
  let direction := vnormalize (asVec2 (target - current))
  let delta := vsmul (speed * dt) direction
  let remaining_vector := target - current
  let remaining_length := vlen (asVec2 remaining_vector)
  let step_length := vlen delta
  if remaining_length ≤ step_length then target
  else current + roundVec delta

----------------------------------------------------------------
-- The per-frame world (the bevy entities/resources the systems touch)
----------------------------------------------------------------

/-- Bevy `WindowPosition`: either not yet set (`Automatic`, also standing
for `Centered`) or a concrete position. -/
inductive WindowPosition where
  | Automatic : WindowPosition
  | At : IVec2 → WindowPosition
deriving Repr

/-- The `WindowPosition::At(pos) => pos, _ => IVec2::ZERO` pattern used by
the movement/teaching/bird systems. -/
def posOrZero : WindowPosition → IVec2
  | .At p => p
  | .Automatic => (0, 0)

/-- One bird window: its position and its `BirdDirection` component. -/
structure BirdEnt where
  pos : WindowPosition
  dir : IVec2

/-- The per-frame world state: the singleton `Bonnie` and `StateMachine`
components, the `State<BonnieState>` resource, the primary window
position, the external inputs (cursor, monitor), the process RNG, the
teach window (if spawned), a pending left-click event on the teach
window, and the spawned bird windows.  Poop/scratch/nerd windows, sprites
and audio are display-only and carry no modelled state. -/
structure World where
  bonnie : BonnieState
  stateRes : BonnieState
  machine : StateMachine
  winPos : WindowPosition
  cursor : Option Vec2
  monitor : Option (Nat × Nat)
  rng : Rng
  teachWin : Option WindowPosition
  teachClick : Bool
  birds : List BirdEnt

----------------------------------------------------------------
-- Transition loop (`handle_state_transitions`, lines 138-179)
----------------------------------------------------------------

/-- `handle_state_transitions` (bonnie_state.rs lines 138-179): tick the
timer; when the gate is open and the timer finished, fetch the monitor
(`expect` = `none` on failure), pick a new state, commit it to both the
`Bonnie` component and the `NextState` resource, and reset the timer to a
fresh random duration from `1.0..4.0`. -/
def handle_state_transitions (delta : ℚ) (w : World) : Option World :=
  let machine : StateMachine := { w.machine with timer := w.machine.timer.tick delta }
  if machine.can_change && machine.timer.fin then
    match w.monitor with
    | none => none
    | some (mw, mh) =>
      match random_state w.bonnie w.rng mw mh with
      | none => none
      | some (new_state, r₁) =>
        match randomRangeRat 1 4 r₁ with
        | none => none
        | some (d, r₂) =>
          some { w with
                 bonnie := new_state, stateRes := new_state,
                 machine := { machine with timer := (machine.timer.reset).set_duration d },
                 rng := r₂ }
  else some { w with machine := machine }

/-- `block_state` (lines 234-238). -/
def block_state (w : World) : World := { w with machine := w.machine.block }

----------------------------------------------------------------
-- OnEnter systems (`BonnieStatePlugin::build`, lines 96-132), restricted
-- to their effects on the modelled world
----------------------------------------------------------------

/-- `do_meow` (lines 733-748): plays a random meow (display-only) and
finishes the machine. -/
def do_meow (w : World) : World := { w with machine := w.machine.finish }

/-- `setup_teaching` (lines 603-713): blocks the machine (again — the
chained `block_state` already ran) and spawns the teach window at
`(-1000, 300)` (nerd window and sprite are display-only). -/
def setup_teaching (w : World) : World :=
  { w with machine := w.machine.block, teachWin := some (.At (-1000, 300)) }

/-- `setup_pooping` (lines 439-489): spawns the poop window (display-only)
and finishes the machine. -/
def setup_pooping (w : World) : World := { w with machine := w.machine.finish }

/-- `setup_bird` (lines 781-837): spawns a bird window at `(100, 100)`
with direction `IVec2::ONE` and finishes the machine. -/
def setup_bird (w : World) : World :=
  { w with birds := w.birds ++ [⟨.At (100, 100), (1, 1)⟩], machine := w.machine.finish }

/-- `create_scratch` (lines 897-952): spawns the scratch overlay
(display-only) and finishes the machine. -/
def create_scratch (w : World) : World := { w with machine := w.machine.finish }

/-- The `OnEnter` system sets registered in `BonnieStatePlugin::build`
(lines 119-130): `Meowing → do_meow`; `Teaching → (block_state,
setup_teaching).chain()`; `Chasing → (block_state, setup_chase)` where
`setup_chase` only swaps the sprite; `Pooping → setup_pooping`;
`Bird → setup_bird`; `Scratch → create_scratch`;
`Idle → (block_state, setup_idling)` where `setup_idling` only swaps the
sprite.  No `OnEnter` system is registered for `Walking`. -/
def onEnterStep (s : BonnieState) (w : World) : World :=
  match s with
  | .Meowing => do_meow w
  | .Teaching => setup_teaching (block_state w)
  | .Chasing => block_state w
  | .Pooping => setup_pooping w
  | .Bird => setup_bird w
  | .Scratch => create_scratch w
  | .Idle => block_state w
  | .Walking _ => w

----------------------------------------------------------------
-- Update systems (build lines 105-118, chained), restricted to their
-- effects on the modelled world
----------------------------------------------------------------

/-- `handle_window_closing::<TeachWindow>` (lines 264-306): a left press
on an existing teach window despawns it and finishes the machine (nerd
despawn and render-layer clearing are display-only; the poop and bird
instantiations touch no modelled state). -/
def handle_window_closing_teach (w : World) : World :=
  if w.teachClick then { w with teachWin := none, machine := w.machine.finish }
  else w

/-- `handle_movement` (lines 312-358): fetch the monitor (`expect`), pick
the target from the active state (`Walking` target; `Chasing` cursor
minus `(90, 147)`, `expect`ing the cursor; other states return), then
run the steering step on the primary window position. -/
noncomputable def handle_movement (delta : ℚ) (w : World) : Option World :=
  match w.monitor with
  | none => none
  | some (mw, mh) =>
    match w.stateRes with
    | .Walking target =>
      some { w with winPos := .At (movement_step (posOrZero w.winPos) target
                      (calculate_movement_speed mw mh w.stateRes) (delta : ℝ)) }
    | .Chasing =>
      match w.cursor with
      | none => none
      | some c =>
        some { w with winPos := .At (movement_step (posOrZero w.winPos)
                        (truncI c.1 - 90, truncI c.2 - 147)
                        (calculate_movement_speed mw mh w.stateRes) (delta : ℝ)) }
    | _ => some w

/-- `handle_teaching` (lines 543-592): if a teach window exists, steer it
toward `bonnie_pos + (-170, 200)` at Teaching speed (monitor `expect`ed). -/
noncomputable def handle_teaching (delta : ℚ) (w : World) : Option World :=
  match w.teachWin with
  | none => some w
  | some tw =>
    match w.monitor with
    | none => none
    | some (mw, mh) =>
      some { w with teachWin := some (.At (movement_step (posOrZero tw)
                      (posOrZero w.winPos + (-170, 200))
                      (calculate_movement_speed mw mh BonnieState.Teaching) (delta : ℝ))) }

/-- `handle_chasing` (lines 504-531): in `Chasing`, if a cursor position
exists and the window position is set, finish the machine when the cursor
is within 35 px of the actor center `bonnie_pos + (90, 147)`. -/
noncomputable def handle_chasing (w : World) : World :=
  open Classical in
  match w.bonnie with
  | .Chasing =>
    match w.cursor with
    | none => w
    | some cursor_pos =>
      match w.winPos with
      | .At bonnie_pos =>
        if vlen (asVec2 (bonnie_pos + (90, 147)) - cursor_pos) < 35 then
          { w with machine := w.machine.finish }
        else w
      | _ => w
  | _ => w

/-- `handle_idling` (lines 387-415): in `Idle`, if a cursor position
exists and the window position is set, finish the machine ("wake up")
when the cursor is within 70 px of the actor center. -/
noncomputable def handle_idling (w : World) : World :=
  open Classical in
  match w.bonnie with
  | .Idle =>
    match w.cursor with
    | none => w
    | some cursor_pos =>
      match w.winPos with
      | .At bonnie_pos =>
        if vlen (asVec2 (bonnie_pos + (90, 147)) - cursor_pos) < 70 then
          { w with machine := w.machine.finish }
        else w
      | _ => w
  | _ => w

/-- `BIRD_SIZE_BUFFER` (line 33). -/
def BIRD_SIZE_BUFFER : ℤ := 80

/-- The edge `match` of `update_birds` (lines 859-875): a Rust `match`
runs only the FIRST arm whose guard holds, in source order (left, right,
top, bottom), and each arm sets one direction component. -/
def bird_flip (pos v : IVec2) (mw mh : ℤ) : IVec2 :=
  if pos.1 < BIRD_SIZE_BUFFER then (1, v.2)
  else if pos.1 + BIRD_SIZE_BUFFER > mw then (-1, v.2)
  else if pos.2 < BIRD_SIZE_BUFFER then (v.1, 1)
  else if pos.2 + BIRD_SIZE_BUFFER > mh then (v.1, -1)
  else v

/-- The per-bird body of `update_birds` (lines 853-883): adjust the
direction via the edge match, then advance the position by the truncation
of `direction * speed * elapsed` (the sprite flip is display-only). -/
noncomputable def update_bird (mw mh : Nat) (delta : ℚ) (b : BirdEnt) : BirdEnt :=
  let current_pos := posOrZero b.pos
  let dir := bird_flip current_pos b.dir (mw : ℤ) (mh : ℤ)
  let speed := calculate_movement_speed mw mh BonnieState.Bird * (delta : ℝ)
  { pos := .At (current_pos + (truncI ((dir.1 : ℝ) * speed), truncI ((dir.2 : ℝ) * speed))),
    dir := dir }

/-- `update_birds` (lines 839-884): `expect` the monitor, then update
every bird window. -/
noncomputable def update_birds (delta : ℚ) (w : World) : Option World :=
  match w.monitor with
  | none => none
  | some (mw, mh) => some { w with birds := w.birds.map (update_bird mw mh delta) }

/-- One pass of the chained `Update` systems (build lines 105-118):
window closings, movement, teaching, chasing, birds, idling, in that
order (`handle_window_closing` for poop and bird windows touches no
modelled state). -/
noncomputable def updateFrame (delta : ℚ) (w : World) : Option World :=
  (handle_movement delta (handle_window_closing_teach w)).bind fun w1 =>
  (handle_teaching delta w1).bind fun w2 =>
  (update_birds delta (handle_chasing w2)).bind fun w3 =>
  some (handle_idling w3)

/-- The cursor being within `threshold` px of the actor center
`bonnie_pos + (90, 147)` (the wake-up condition of `handle_idling`). -/
noncomputable def cursorNear (w : World) (threshold : ℝ) : Prop :=
  ∃ c p, w.cursor = some c ∧ w.winPos = .At p ∧
    vlen (asVec2 (p + (90, 147)) - c) < threshold

/-- A fixed concrete randomness source (constant zero raw draws). -/
def rng0 : Rng := ⟨fun _ => 0, 0⟩

/-- A concrete world used by witnesses and counterexamples: Idle, gate
open, timer 2s untouched, window at `(500, 500)`, no cursor, a 300x400
monitor, no transient windows. -/
def baseW : World :=
  { bonnie := .Idle, stateRes := .Idle, machine := ⟨⟨2, 0⟩, true⟩,
    winPos := .At (500, 500), cursor := none, monitor := some (300, 400),
    rng := rng0, teachWin := none, teachClick := false, birds := [] }

----------------------------------------------------------------
-- Claim theorems: C1, C2, C7
----------------------------------------------------------------


/-- C1: for every current state `S`, every monitor size and every randomness
source, whenever `random_state(S, rng, monitor_size)` returns a state, that
state's variant kind differs from the variant kind of `S`. -/
theorem C1_random_state_changes_variant (s : BonnieState) (r : Rng) (w h : Nat)
    (st : BonnieState) (r' : Rng)
    (hst : random_state s r w h = some (st, r')) : disc st ≠ disc s :=
  random_state_disc_ne hst

/-- Witness for C1: on a 1920x1080 monitor from `Idle` with the constant-zero
randomness source, `random_state` returns `Walking (150, 150)`, whose variant
kind differs from `Idle`. -/
theorem C1_random_state_changes_variant_witness :
    random_state BonnieState.Idle rng0 1920 1080 =
      some (BonnieState.Walking (150, 150), ⟨fun _ => 0, 5⟩) ∧
    disc (BonnieState.Walking (150, 150)) ≠ disc BonnieState.Idle :=
  ⟨rfl, C1_random_state_changes_variant BonnieState.Idle rng0 1920 1080
    (BonnieState.Walking (150, 150)) ⟨fun _ => 0, 5⟩ rfl⟩

/-- C2: for every gate state, `finish()` zeroes the remaining duration and
sets `can_change`, and repeating `finish()` on an already finished,
unblocked gate changes nothing (idempotence). -/
theorem C2_finish_zeroes_and_unblocks_idempotent (m : StateMachine) :
    (m.finish).timer.remaining = 0 ∧ (m.finish).can_change = true ∧
    m.finish.finish = m.finish := by
  refine ⟨?_, rfl, rfl⟩
  simp [StateMachine.finish, Timer.remaining]

/-- C7 (failing input): on a 300x300 monitor, with `Walking` selected, the
first-stage draw from `200..(300-200)` hits an empty range and panics
(modelled as `none`) before the guarded `[0, 300)` fallback is reached. -/
theorem C7_small_screen_walk_target_panics :
    random_state BonnieState.Idle rng0 300 300 = none := rfl

----------------------------------------------------------------
-- Claim theorems: C5, C6
----------------------------------------------------------------

/-- C5 (counterexample): the claim says entering `Walking` blocks the
gate; but `BonnieStatePlugin::build` registers no `OnEnter` system for
`Walking`, so entering `Walking (100, 100)` in a world with an open gate
leaves `can_change = true`. -/
theorem C5_walking_entry_does_not_block :
    (onEnterStep (BonnieState.Walking (100, 100)) baseW).machine.can_change = true := rfl

/-- C5 (amended): entering `Chasing` or `Teaching` blocks the gate on
entry, while entering `Walking` runs no entry system at all and leaves
the whole world unchanged. -/
theorem C5_chasing_teaching_block_walking_unchanged (w : World) (v : IVec2) :
    (onEnterStep BonnieState.Chasing w).machine.can_change = false ∧
    (onEnterStep BonnieState.Teaching w).machine.can_change = false ∧
    onEnterStep (BonnieState.Walking v) w = w :=
  ⟨rfl, rfl, rfl⟩

/-- C6 (counterexample): the claim says a missing cursor position during
`Chasing` makes the affected operation skip the frame; in fact
`handle_movement` `expect`s the cursor and panics (modelled `none`). -/
theorem C6_chasing_without_cursor_panics :
    handle_movement 1 { baseW with bonnie := .Chasing, stateRes := .Chasing } = none := rfl

/-- C6 (amended): the `Idle` and `Chasing` proximity handlers do skip the
frame when no cursor position is available, but `handle_movement` and
`update_birds` panic when no monitor is available (whatever the state),
`handle_movement` panics in `Chasing` when no cursor is available, and
the transition loop panics when a transition is due and no monitor is
available — these are fatal, not skipped. -/
theorem C6_cursor_skips_monitor_panics (w : World) (delta : ℚ) :
    (w.bonnie = .Idle → w.cursor = none → handle_idling w = w) ∧
    (w.bonnie = .Chasing → w.cursor = none → handle_chasing w = w) ∧
    (w.monitor = none → handle_movement delta w = none) ∧
    (w.monitor = none → update_birds delta w = none) ∧
    (∀ mw mh, w.monitor = some (mw, mh) → w.stateRes = .Chasing → w.cursor = none →
      handle_movement delta w = none) ∧
    (w.monitor = none → w.machine.can_change = true →
      (w.machine.timer.tick delta).fin = true →
      handle_state_transitions delta w = none) := by
  refine ⟨?_, ?_, ?_, ?_, ?_, ?_⟩
  · intro h1 h2
    unfold handle_idling
    simp only [h1, h2]
  · intro h1 h2
    unfold handle_chasing
    simp only [h1, h2]
  · intro h1
    unfold handle_movement
    simp only [h1]
  · intro h1
    unfold update_birds
    simp only [h1]
  · intro mw mh h1 h2 h3
    unfold handle_movement
    simp only [h1, h2, h3]
  · intro h1 h2 h3
    simp only [handle_state_transitions, h1, h2, h3, Bool.and_self, if_true]

/-- Witness for the C6 amendment: in the base world (Idle, no cursor) the
idle handler is a no-op, and with the monitor removed the movement system
panics. -/
theorem C6_cursor_skips_monitor_panics_witness :
    handle_idling baseW = baseW ∧
    handle_movement 1 { baseW with monitor := none } = none :=
  ⟨(C6_cursor_skips_monitor_panics baseW 1).1 rfl rfl,
   (C6_cursor_skips_monitor_panics { baseW with monitor := none } 1).2.2.1 rfl⟩

----------------------------------------------------------------
-- Claim theorem: C3
----------------------------------------------------------------

theorem randomRangeRat_bounds {lo hi : ℚ} (hlt : lo < hi) {r r' : Rng} {d : ℚ}
    (h : randomRangeRat lo hi r = some (d, r')) : lo ≤ d ∧ d < hi := by
  unfold randomRangeRat at h
  rw [if_neg (not_le.mpr hlt)] at h
  rcases hnx : r.next with ⟨k, r2⟩
  simp only [hnx, Option.some.injEq, Prod.mk.injEq] at h
  obtain ⟨hd, -⟩ := h
  have h0 : (0 : ℚ) ≤ ((k % 1024 : ℕ) : ℚ) := Nat.cast_nonneg _
  have h1 : ((k % 1024 : ℕ) : ℚ) < 1024 := by
    exact_mod_cast Nat.mod_lt k (by norm_num)
  have h2 : (0 : ℚ) < hi - lo := sub_pos.mpr hlt
  constructor
  · rw [← hd]; nlinarith
  · rw [← hd]; nlinarith

/-- C3: the per-frame transition step fires only when `can_change` holds
and the (just ticked) timer has finished; when it does not fire, only the
ticked timer changes (the Actor state is untouched); when it fires (and
the monitor and the two draws succeed), the committed state has a
different variant kind from the old one and the timer is reset to a fresh
duration in `[1, 4)`. -/
theorem C3_transition_fires_only_when_unblocked_and_expired (delta : ℚ) (w : World) :
    (¬ (w.machine.can_change = true ∧ (w.machine.timer.tick delta).fin = true) →
      handle_state_transitions delta w =
        some { w with machine := { w.machine with timer := w.machine.timer.tick delta } }) ∧
    (∀ mw mh st r₁ d r₂,
      w.machine.can_change = true → (w.machine.timer.tick delta).fin = true →
      w.monitor = some (mw, mh) →
      random_state w.bonnie w.rng mw mh = some (st, r₁) →
      randomRangeRat 1 4 r₁ = some (d, r₂) →
      handle_state_transitions delta w =
        some { w with
               bonnie := st, stateRes := st,
               machine := { timer := ⟨d, 0⟩, can_change := w.machine.can_change },
               rng := r₂ } ∧
      disc st ≠ disc w.bonnie ∧ 1 ≤ d ∧ d < 4) := by
  constructor
  · intro hn
    have hcond : (w.machine.can_change && (w.machine.timer.tick delta).fin) = false := by
      rcases h1 : w.machine.can_change <;> rcases h2 : (w.machine.timer.tick delta).fin <;>
        simp_all
    simp only [handle_state_transitions, hcond, Bool.false_eq_true, if_false]
  · intro mw mh st r₁ d r₂ hcc hfin hmon hrs hrr
    have hcond : (w.machine.can_change && (w.machine.timer.tick delta).fin) = true := by
      simp only [hcc, hfin, Bool.and_self]
    refine ⟨?_, random_state_disc_ne hrs,
      (randomRangeRat_bounds (by norm_num) hrr).1,
      (randomRangeRat_bounds (by norm_num) hrr).2⟩
    simp only [handle_state_transitions, hcond, hmon, hrs, hrr, if_true]
    rfl

/-- Witness for C3: in the base world with an expired timer and an open
gate the transition commits `Walking (150, 150)` and resets the timer to
duration 1; with a blocked gate only the timer ticks. -/
theorem C3_transition_fires_only_when_unblocked_and_expired_witness :
    (handle_state_transitions 1
        { baseW with machine := ⟨⟨2, 2⟩, true⟩, monitor := some (1920, 1080) } =
      some { baseW with
             bonnie := BonnieState.Walking (150, 150),
             stateRes := BonnieState.Walking (150, 150),
             machine := ⟨⟨1, 0⟩, true⟩, monitor := some (1920, 1080),
             rng := ⟨fun _ => 0, 6⟩ } ∧
     disc (BonnieState.Walking (150, 150)) ≠ disc BonnieState.Idle ∧
     (1 : ℚ) ≤ 1 ∧ (1 : ℚ) < 4) ∧
    handle_state_transitions 1 { baseW with machine := ⟨⟨2, 0⟩, false⟩ } =
      some { baseW with machine := ⟨⟨2, 1⟩, false⟩ } := by
  constructor
  · exact (C3_transition_fires_only_when_unblocked_and_expired 1
      { baseW with machine := ⟨⟨2, 2⟩, true⟩, monitor := some (1920, 1080) }).2
      1920 1080 (BonnieState.Walking (150, 150)) ⟨fun _ => 0, 5⟩ 1 ⟨fun _ => 0, 6⟩
      rfl
      (by simp only [Timer.fin, Timer.tick, decide_eq_true_eq]
          rw [if_neg (by norm_num)])
      rfl rfl
      (by unfold randomRangeRat Rng.next; norm_num)
  · have h := (C3_transition_fires_only_when_unblocked_and_expired 1
      { baseW with machine := ⟨⟨2, 0⟩, false⟩ }).1 (by simp)
    rw [h]
    norm_num [Timer.tick]

----------------------------------------------------------------
-- Frame lemmas and claim theorem C10
----------------------------------------------------------------

theorem closing_teach_no_click {w : World} (h : w.teachClick = false) :
    handle_window_closing_teach w = w := by
  unfold handle_window_closing_teach
  simp only [h, Bool.false_eq_true, if_false]

theorem handle_movement_skips {w : World} {mw mh : Nat} (delta : ℚ)
    (hmon : w.monitor = some (mw, mh)) (hsr : w.stateRes = .Idle) :
    handle_movement delta w = some w := by
  unfold handle_movement
  simp only [hmon, hsr]

theorem handle_teaching_preserves {w : World} {mw mh : Nat} (delta : ℚ)
    (hmon : w.monitor = some (mw, mh)) :
    ∃ tw, handle_teaching delta w = some { w with teachWin := tw } := by
  unfold handle_teaching
  rcases ht : w.teachWin with _ | tw0
  · exact ⟨_, rfl⟩
  · simp only [hmon]
    exact ⟨_, rfl⟩

theorem handle_chasing_skip_idle {w : World} (hb : w.bonnie = .Idle) :
    handle_chasing w = w := by
  unfold handle_chasing
  simp only [hb]

theorem update_birds_run {w : World} {mw mh : Nat} (delta : ℚ)
    (hmon : w.monitor = some (mw, mh)) :
    update_birds delta w = some { w with birds := w.birds.map (update_bird mw mh delta) } := by
  unfold update_birds
  simp only [hmon]

theorem handle_idling_no_wake {w : World} (hnear : ¬ cursorNear w 70) :
    handle_idling w = w := by
  unfold handle_idling
  rcases hb : w.bonnie <;> try rfl
  rcases hc : w.cursor with _ | c
  · rfl
  · rcases hp : w.winPos with _ | p
    · rfl
    · exact if_neg fun hlt => hnear ⟨c, p, hc, hp, hlt⟩

theorem transitions_blocked {w : World} (delta : ℚ)
    (hcc : w.machine.can_change = false) :
    handle_state_transitions delta w =
      some { w with machine := { w.machine with timer := w.machine.timer.tick delta } } := by
  have hcond : (w.machine.can_change && (w.machine.timer.tick delta).fin) = false := by
    simp [hcc]
  simp only [handle_state_transitions, hcond, Bool.false_eq_true, if_false]

/-- C10: entering `Idle` blocks the gate; with the gate blocked the
transition loop never changes the state no matter how the timer ticks; a
whole Update-plus-transition frame in blocked `Idle` (no teach-window
click, monitor available, cursor not within 70 px) leaves the machine in
`Idle` with the gate still blocked; and when the cursor comes within
70 px of the actor center, `handle_idling` finishes the gate (expired and
unblocked). -/
theorem C10_idle_blocks_until_cursor_proximity (w : World) (delta : ℚ) :
    ((onEnterStep BonnieState.Idle w).machine.can_change = false) ∧
    (w.bonnie = .Idle → w.machine.can_change = false →
      ∃ w', handle_state_transitions delta w = some w' ∧
        w'.bonnie = .Idle ∧ w'.machine.can_change = false) ∧
    (∀ mw mh, w.bonnie = .Idle → w.stateRes = .Idle → w.machine.can_change = false →
      w.teachClick = false → w.monitor = some (mw, mh) → ¬ cursorNear w 70 →
      ∃ w', (updateFrame delta w).bind (handle_state_transitions delta) = some w' ∧
        w'.bonnie = .Idle ∧ w'.machine.can_change = false) ∧
    (∀ c p, w.bonnie = .Idle → w.cursor = some c → w.winPos = .At p →
      vlen (asVec2 (p + (90, 147)) - c) < 70 →
      handle_idling w = { w with machine := w.machine.finish } ∧
      (w.machine.finish).can_change = true ∧ (w.machine.finish).timer.remaining = 0) := by
  refine ⟨rfl, ?_, ?_, ?_⟩
  · intro hb hcc
    exact ⟨_, transitions_blocked delta hcc, hb, hcc⟩
  · intro mw mh hb hsr hcc htc hmon hnear
    obtain ⟨tw, e3⟩ := handle_teaching_preserves (w := w) delta hmon
    have e4 : handle_chasing { w with teachWin := tw } = { w with teachWin := tw } :=
      handle_chasing_skip_idle hb
    have e5 : update_birds delta { w with teachWin := tw } =
        some { w with
               teachWin := tw,
               birds := w.birds.map (update_bird mw mh delta) } :=
      update_birds_run delta hmon
    have e6 : handle_idling { w with
        teachWin := tw,
        birds := w.birds.map (update_bird mw mh delta) } =
        { w with
          teachWin := tw,
          birds := w.birds.map (update_bird mw mh delta) } :=
      handle_idling_no_wake fun hn => by
        obtain ⟨c, p, hc, hp, hlt⟩ := hn
        exact hnear ⟨c, p, hc, hp, hlt⟩
    refine ⟨{ w with
              teachWin := tw,
              birds := w.birds.map (update_bird mw mh delta),
              machine := { w.machine with timer := w.machine.timer.tick delta } },
            ?_, hb, hcc⟩
    unfold updateFrame
    rw [closing_teach_no_click htc, handle_movement_skips delta hmon hsr]
    simp only [Option.some_bind]
    rw [e3]
    simp only [Option.some_bind]
    rw [e4, e5]
    simp only [Option.some_bind, e6]
    exact transitions_blocked delta hcc
  · intro c p hb hc hp hlt
    refine ⟨?_, rfl, ?_⟩
    · unfold handle_idling
      simp only [hb, hc, hp]
      exact if_pos hlt
    · simp [StateMachine.finish, Timer.remaining]

/-- Witness for C10: in the base world (Idle) with a blocked gate and no
cursor the frame keeps Idle blocked, and with the cursor exactly at the
actor center the idle handler finishes the gate. -/
theorem C10_idle_blocks_until_cursor_proximity_witness :
    (onEnterStep BonnieState.Idle baseW).machine.can_change = false ∧
    (∃ w', handle_state_transitions 1 { baseW with machine := ⟨⟨2, 2⟩, false⟩ } = some w' ∧
      w'.bonnie = .Idle ∧ w'.machine.can_change = false) ∧
    (∃ w', (updateFrame 1 { baseW with machine := ⟨⟨2, 2⟩, false⟩ }).bind
        (handle_state_transitions 1) = some w' ∧
      w'.bonnie = .Idle ∧ w'.machine.can_change = false) ∧
    handle_idling { baseW with cursor := some (asVec2 (590, 647)) } =
      { ({ baseW with cursor := some (asVec2 (590, 647)) } : World) with
        machine := baseW.machine.finish } := by
  refine ⟨(C10_idle_blocks_until_cursor_proximity baseW 1).1,
    (C10_idle_blocks_until_cursor_proximity
      { baseW with machine := ⟨⟨2, 2⟩, false⟩ } 1).2.1 rfl rfl,
    (C10_idle_blocks_until_cursor_proximity
      { baseW with machine := ⟨⟨2, 2⟩, false⟩ } 1).2.2.1 300 400 rfl rfl rfl rfl rfl
      (by rintro ⟨c, p, hc, -, -⟩; exact Option.noConfusion hc),
    ((C10_idle_blocks_until_cursor_proximity
      { baseW with cursor := some (asVec2 (590, 647)) } 1).2.2.2 (asVec2 (590, 647))
      (500, 500) rfl rfl rfl ?_).1⟩
  have h0 : asVec2 ((500, 500) + (90, 147)) - asVec2 (590, 647) = (0, 0) := by
    norm_num [asVec2, Prod.ext_iff]
  rw [h0]
  norm_num [vlen, Real.sqrt_zero]

----------------------------------------------------------------
-- Real-geometry helper lemmas
----------------------------------------------------------------

theorem sqrt_eq_of_sq {x r : ℝ} (hr : 0 ≤ r) (hx : r ^ 2 = x) : Real.sqrt x = r := by
  rw [← hx]
  exact Real.sqrt_sq hr

theorem vlen_nonneg (v : Vec2) : 0 ≤ vlen v := Real.sqrt_nonneg _

theorem vlen_axis (a : ℝ) (ha : 0 ≤ a) : vlen (a, 0) = a := by
  unfold vlen
  exact sqrt_eq_of_sq ha (by ring)

theorem vlen_smul (c : ℝ) (v : Vec2) : vlen (vsmul c v) = |c| * vlen v := by
  unfold vlen vsmul
  rw [show (c * v.1) ^ 2 + (c * v.2) ^ 2 = c ^ 2 * (v.1 ^ 2 + v.2 ^ 2) by ring,
      Real.sqrt_mul (sq_nonneg c), Real.sqrt_sq_eq_abs]

theorem vnormalize_eq_smul (v : Vec2) : vnormalize v = vsmul (vlen v)⁻¹ v := by
  unfold vnormalize vsmul
  rw [Prod.mk.injEq]
  constructor <;> ring

theorem vlen_normalize {v : Vec2} (hv : 0 < vlen v) : vlen (vnormalize v) = 1 := by
  rw [vnormalize_eq_smul, vlen_smul, abs_of_nonneg (inv_nonneg.mpr (le_of_lt hv))]
  exact inv_mul_cancel₀ (ne_of_gt hv)

theorem sq_le_of_abs_le {x y : ℝ} (h : |x| ≤ |y|) : x ^ 2 ≤ y ^ 2 := by
  nlinarith [sq_abs x, sq_abs y, abs_nonneg x, abs_nonneg y]

theorem asVec2_fst (v : IVec2) : (asVec2 v).1 = (v.1 : ℝ) := rfl

theorem asVec2_snd (v : IVec2) : (asVec2 v).2 = (v.2 : ℝ) := rfl

theorem vlen_le_vlen {u v : Vec2} (h1 : u.1 ^ 2 ≤ v.1 ^ 2) (h2 : u.2 ^ 2 ≤ v.2 ^ 2) :
    vlen u ≤ vlen v := by
  unfold vlen
  exact Real.sqrt_le_sqrt (add_le_add h1 h2)

----------------------------------------------------------------
-- Claim theorems: C9
----------------------------------------------------------------

/-- C9 (counterexample): a bird at `(50, 50)` is within both the left
buffer (`x < 80`) and the top buffer (`y < 80`); with direction
`(-1, -1)` the `match` runs only the first matching arm, so only the x
component is set — the y component stays `-1` instead of flipping. -/
theorem C9_corner_flips_only_x :
    bird_flip (50, 50) (-1, -1) 300 400 = (1, -1) ∧
    (50 : ℤ) < 80 ∧ (bird_flip (50, 50) (-1, -1) 300 400).2 ≠ 1 := by
  decide

/-- C9 (amended): each tick only the FIRST matching edge check fires, in
the order left, right, top, bottom, and it SETS the corresponding
component toward the screen interior (the vertical checks run only when
neither horizontal check fired); at most one direction component changes
per tick; the per-bird update adjusts the direction with this edge match
and advances the position by the truncation of direction x speed x
elapsed time. -/
theorem C9_first_matching_edge_only (pos v : IVec2) (mw mh : ℤ)
    (mwN mhN : Nat) (delta : ℚ) (b : BirdEnt) (p : IVec2) :
    (pos.1 < 80 → bird_flip pos v mw mh = (1, v.2)) ∧
    (¬ pos.1 < 80 → pos.1 + 80 > mw → bird_flip pos v mw mh = (-1, v.2)) ∧
    (¬ pos.1 < 80 → ¬ pos.1 + 80 > mw → pos.2 < 80 →
      bird_flip pos v mw mh = (v.1, 1)) ∧
    (¬ pos.1 < 80 → ¬ pos.1 + 80 > mw → ¬ pos.2 < 80 → pos.2 + 80 > mh →
      bird_flip pos v mw mh = (v.1, -1)) ∧
    ((bird_flip pos v mw mh).1 = v.1 ∨ (bird_flip pos v mw mh).2 = v.2) ∧
    (b.pos = .At p →
      (update_bird mwN mhN delta b).dir = bird_flip p b.dir (mwN : ℤ) (mhN : ℤ) ∧
      (update_bird mwN mhN delta b).pos = .At (p +
        (truncI (((bird_flip p b.dir (mwN : ℤ) (mhN : ℤ)).1 : ℝ) *
           (calculate_movement_speed mwN mhN BonnieState.Bird * (delta : ℝ))),
         truncI (((bird_flip p b.dir (mwN : ℤ) (mhN : ℤ)).2 : ℝ) *
           (calculate_movement_speed mwN mhN BonnieState.Bird * (delta : ℝ)))))) := by
  refine ⟨?_, ?_, ?_, ?_, ?_, ?_⟩
  · intro h1
    simp [bird_flip, BIRD_SIZE_BUFFER, h1]
  · intro h1 h2
    simp [bird_flip, BIRD_SIZE_BUFFER, h1, h2]
  · intro h1 h2 h3
    simp [bird_flip, BIRD_SIZE_BUFFER, h1, h2, h3]
  · intro h1 h2 h3 h4
    simp [bird_flip, BIRD_SIZE_BUFFER, h1, h2, h3, h4]
  · unfold bird_flip
    split_ifs <;> simp
  · intro hb
    constructor <;> simp [update_bird, posOrZero, hb]

/-- Witness for the C9 amendment: at `(100, 50)` (inside only the top
buffer) the third arm fires and sets the y component toward the
interior. -/
theorem C9_first_matching_edge_only_witness :
    bird_flip (100, 50) (-1, -1) 300 400 = (-1, 1) :=
  (C9_first_matching_edge_only (100, 50) (-1, -1) 300 400 300 400 1
    ⟨.At (0, 0), (1, 1)⟩ (0, 0)).2.2.1 (by decide) (by decide) (by decide)

----------------------------------------------------------------
-- Rounding bound for the steering step
----------------------------------------------------------------

theorem rustRound_close (k : ℝ) (h0 : 0 ≤ k) (h1 : k < 1) (n : ℤ) :
    |(n : ℝ) - ((rustRound (k * (n : ℝ)) : ℤ) : ℝ)| ≤ |(n : ℝ)| := by
  rcases le_or_lt 0 (n : ℝ) with hn | hn
  · have hx0 : 0 ≤ k * (n : ℝ) := mul_nonneg h0 hn
    have hr : rustRound (k * (n : ℝ)) = ⌊k * (n : ℝ) + 1 / 2⌋ := by
      unfold rustRound
      rw [if_pos hx0]
    have hm0 : (0 : ℤ) ≤ ⌊k * (n : ℝ) + 1 / 2⌋ := Int.floor_nonneg.mpr (by linarith)
    have hmn : ⌊k * (n : ℝ) + 1 / 2⌋ ≤ n := by
      have h3 : (⌊k * (n : ℝ) + 1 / 2⌋ : ℝ) ≤ k * n + 1 / 2 := Int.floor_le _
      have h4 : k * (n : ℝ) ≤ n := by nlinarith
      have h5 : (⌊k * (n : ℝ) + 1 / 2⌋ : ℝ) < (n : ℝ) + 1 := by linarith
      exact_mod_cast Int.lt_add_one_iff.mp (by exact_mod_cast h5)
    rw [hr]
    have hc0 : (0 : ℝ) ≤ (⌊k * (n : ℝ) + 1 / 2⌋ : ℝ) := by exact_mod_cast hm0
    have hcn : ((⌊k * (n : ℝ) + 1 / 2⌋ : ℤ) : ℝ) ≤ (n : ℝ) := by exact_mod_cast hmn
    rw [abs_of_nonneg (sub_nonneg.mpr hcn), abs_of_nonneg hn]
    linarith
  · have hn' : (n : ℝ) ≤ 0 := le_of_lt hn
    have hx : k * (n : ℝ) ≤ 0 := mul_nonpos_of_nonneg_of_nonpos h0 hn'
    rcases eq_or_lt_of_le hx with hx0 | hxneg
    · have hr0 : rustRound (k * (n : ℝ)) = 0 := by
        unfold rustRound
        rw [if_pos (le_of_eq hx0.symm), hx0, zero_add]
        exact Int.floor_eq_iff.mpr (by norm_num)
      rw [hr0]
      simp
    · have hr : rustRound (k * (n : ℝ)) = -⌊-(k * (n : ℝ)) + 1 / 2⌋ := by
        unfold rustRound
        rw [if_neg (not_le.mpr hxneg)]
      have hm0 : (0 : ℤ) ≤ ⌊-(k * (n : ℝ)) + 1 / 2⌋ := Int.floor_nonneg.mpr (by nlinarith)
      have hmn : ⌊-(k * (n : ℝ)) + 1 / 2⌋ ≤ -n := by
        have h3 : (⌊-(k * (n : ℝ)) + 1 / 2⌋ : ℝ) ≤ -(k * n) + 1 / 2 := Int.floor_le _
        have h4 : -(k * (n : ℝ)) ≤ -n := by nlinarith
        have h5 : (⌊-(k * (n : ℝ)) + 1 / 2⌋ : ℝ) < (-n : ℝ) + 1 := by linarith
        exact_mod_cast Int.lt_add_one_iff.mp (by exact_mod_cast h5)
      rw [hr]
      have hc0 : (0 : ℝ) ≤ (⌊-(k * (n : ℝ)) + 1 / 2⌋ : ℝ) := by exact_mod_cast hm0
      have hcn : ((⌊-(k * (n : ℝ)) + 1 / 2⌋ : ℤ) : ℝ) ≤ -(n : ℝ) := by exact_mod_cast hmn
      have he : (n : ℝ) - ((-⌊-(k * (n : ℝ)) + 1 / 2⌋ : ℤ) : ℝ) =
          (n : ℝ) + (⌊-(k * (n : ℝ)) + 1 / 2⌋ : ℝ) := by push_cast; ring
      rw [he, abs_of_nonpos (by linarith), abs_of_nonpos hn']
      linarith

----------------------------------------------------------------
-- Claim theorems: C8
----------------------------------------------------------------

/-- C8 (counterexample): from `(0, 0)` toward `(3, 4)` (distance 5) with
`speed * dt = 9/10` the unrounded step has length `9/10 < 5`, but the
rounded step lands at `(1, 1)`, at distance `√13 < 5 - 9/10` from the
target: the new position is neither the target nor inside the claimed
interval `[old - step, old]`. -/
theorem C8_rounded_step_leaves_claimed_interval :
    movement_step (0, 0) (3, 4) (9 / 10) 1 = (1, 1) ∧
    vlen (asVec2 ((3, 4) - ((0, 0) : IVec2))) = 5 ∧
    vlen (vsmul (9 / 10 * 1) (vnormalize (asVec2 ((3, 4) - ((0, 0) : IVec2))))) = 9 / 10 ∧
    ¬ (movement_step (0, 0) (3, 4) (9 / 10) 1 = (3, 4) ∨
       (5 - 9 / 10 ≤ vlen (asVec2 ((3, 4) - movement_step (0, 0) (3, 4) (9 / 10) 1)) ∧
        vlen (asVec2 ((3, 4) - movement_step (0, 0) (3, 4) (9 / 10) 1)) ≤ 5)) := by
  have hsub : ((3, 4) : IVec2) - (0, 0) = (3, 4) := by decide
  have hvec : asVec2 ((3, 4) : IVec2) = ((3 : ℝ), 4) := by norm_num [asVec2]
  have hlen : vlen ((3 : ℝ), 4) = 5 := by
    unfold vlen
    exact sqrt_eq_of_sq (by norm_num) (by norm_num)
  have hnorm : vnormalize ((3 : ℝ), 4) = (3 / 5, 4 / 5) := by
    unfold vnormalize
    rw [hlen]
  have hdelta : vsmul (9 / 10 * 1) ((3 / 5 : ℝ), 4 / 5) = (27 / 50, 18 / 25) := by
    unfold vsmul
    norm_num
  have hsteplen : vlen ((27 / 50 : ℝ), 18 / 25) = 9 / 10 := by
    unfold vlen
    exact sqrt_eq_of_sq (by norm_num) (by norm_num)
  have hr1 : rustRound (27 / 50 : ℝ) = 1 := by
    unfold rustRound
    rw [if_pos (by norm_num)]
    exact Int.floor_eq_iff.mpr (by norm_num)
  have hr2 : rustRound (18 / 25 : ℝ) = 1 := by
    unfold rustRound
    rw [if_pos (by norm_num)]
    exact Int.floor_eq_iff.mpr (by norm_num)
  have hms : movement_step (0, 0) (3, 4) (9 / 10) 1 = (1, 1) := by
    simp only [movement_step]
    rw [hsub, hvec, hnorm, hdelta, hlen, hsteplen, if_neg (by norm_num)]
    unfold roundVec
    rw [hr1, hr2]
    decide
  refine ⟨hms, by rw [hsub, hvec]; exact hlen,
    by rw [hsub, hvec, hnorm, hdelta]; exact hsteplen, ?_⟩
  rw [hms]
  have hrem : ((3, 4) : IVec2) - (1, 1) = (2, 3) := by decide
  have hvec2 : asVec2 ((2, 3) : IVec2) = ((2 : ℝ), 3) := by norm_num [asVec2]
  have hlen13 : vlen ((2 : ℝ), 3) = Real.sqrt 13 := by
    unfold vlen
    norm_num
  rintro (heq | ⟨hlow, -⟩)
  · exact absurd heq (by decide)
  · rw [hrem, hvec2, hlen13] at hlow
    nlinarith [Real.sq_sqrt (show (0 : ℝ) ≤ 13 by norm_num), Real.sqrt_nonneg 13]

/-- C8 (amended): when the remaining distance is at most the computed
step length the code snaps exactly to the target; otherwise the computed
(unrounded) step is strictly shorter than the remaining distance and the
integer-rounded step never moves the window farther from the target than
it was (though, as the counterexample shows, it can land below
`old - step`). -/
theorem C8_step_never_exceeds_remaining (current target : IVec2) (speed dt : ℝ)
    (hs : 0 ≤ speed) (hd : 0 ≤ dt) :
    (vlen (asVec2 (target - current)) ≤
        vlen (vsmul (speed * dt) (vnormalize (asVec2 (target - current)))) →
      movement_step current target speed dt = target) ∧
    (¬ vlen (asVec2 (target - current)) ≤
        vlen (vsmul (speed * dt) (vnormalize (asVec2 (target - current)))) →
      vlen (vsmul (speed * dt) (vnormalize (asVec2 (target - current)))) <
        vlen (asVec2 (target - current)) ∧
      vlen (asVec2 (target - movement_step current target speed dt)) ≤
        vlen (asVec2 (target - current))) := by
  constructor
  · intro hle
    simp only [movement_step]
    rw [if_pos hle]
  · intro hnot
    have hlt := not_le.mp hnot
    refine ⟨hlt, ?_⟩
    have hms : movement_step current target speed dt =
        current + roundVec (vsmul (speed * dt) (vnormalize (asVec2 (target - current)))) := by
      simp only [movement_step]
      rw [if_neg hnot]
    rw [hms]
    have hL0 : 0 < vlen (asVec2 (target - current)) :=
      lt_of_le_of_lt (vlen_nonneg _) hlt
    have hsdt : 0 ≤ speed * dt := mul_nonneg hs hd
    have hstep : vlen (vsmul (speed * dt) (vnormalize (asVec2 (target - current)))) =
        speed * dt := by
      rw [vlen_smul, vlen_normalize hL0, abs_of_nonneg hsdt, mul_one]
    have hk0 : 0 ≤ speed * dt / vlen (asVec2 (target - current)) :=
      div_nonneg hsdt (le_of_lt hL0)
    have hk1 : speed * dt / vlen (asVec2 (target - current)) < 1 := by
      rw [div_lt_one hL0]
      rw [hstep] at hlt
      exact hlt
    have hd1 : (vsmul (speed * dt) (vnormalize (asVec2 (target - current)))).1 =
        speed * dt / vlen (asVec2 (target - current)) * ((target - current).1 : ℝ) := by
      unfold vsmul vnormalize asVec2
      ring
    have hd2 : (vsmul (speed * dt) (vnormalize (asVec2 (target - current)))).2 =
        speed * dt / vlen (asVec2 (target - current)) * ((target - current).2 : ℝ) := by
      unfold vsmul vnormalize asVec2
      ring
    have hveq : target - (current +
        roundVec (vsmul (speed * dt) (vnormalize (asVec2 (target - current))))) =
        (target - current) -
          roundVec (vsmul (speed * dt) (vnormalize (asVec2 (target - current)))) := by
      rw [sub_add_eq_sub_sub]
    rw [hveq]
    have hround : roundVec (vsmul (speed * dt) (vnormalize (asVec2 (target - current)))) =
        (rustRound (speed * dt / vlen (asVec2 (target - current)) *
           ((target - current).1 : ℝ)),
         rustRound (speed * dt / vlen (asVec2 (target - current)) *
           ((target - current).2 : ℝ))) := by
      unfold roundVec
      rw [hd1, hd2]
    rw [hround]
    have key1 := rustRound_close _ hk0 hk1 (target - current).1
    have key2 := rustRound_close _ hk0 hk1 (target - current).2
    apply vlen_le_vlen
    · rw [asVec2_fst, asVec2_fst, Prod.fst_sub]
      push_cast
      exact sq_le_of_abs_le key1
    · rw [asVec2_snd, asVec2_snd, Prod.snd_sub]
      push_cast
      exact sq_le_of_abs_le key2

/-- Witness for the C8 amendment: the bounds instantiated at the
counterexample inputs (speed 9/10, dt 1, from the origin toward
`(3, 4)`). -/
theorem C8_step_never_exceeds_remaining_witness :
    (0 : ℝ) ≤ 9 / 10 ∧ (0 : ℝ) ≤ 1 ∧
    (¬ vlen (asVec2 (((3, 4) : IVec2) - (0, 0))) ≤
        vlen (vsmul (9 / 10 * 1) (vnormalize (asVec2 (((3, 4) : IVec2) - (0, 0))))) →
      vlen (vsmul (9 / 10 * 1) (vnormalize (asVec2 (((3, 4) : IVec2) - (0, 0))))) <
        vlen (asVec2 (((3, 4) : IVec2) - (0, 0))) ∧
      vlen (asVec2 (((3, 4) : IVec2) - movement_step (0, 0) (3, 4) (9 / 10) 1)) ≤
        vlen (asVec2 (((3, 4) : IVec2) - (0, 0)))) :=
  ⟨by norm_num, by norm_num,
   (C8_step_never_exceeds_remaining (0, 0) (3, 4) (9 / 10) 1
     (by norm_num) (by norm_num)).2⟩

----------------------------------------------------------------
-- Claim theorems: C4
----------------------------------------------------------------

theorem handle_movement_snaps {w : World} {mw mh : Nat} {target p : IVec2} (delta : ℚ)
    (hmon : w.monitor = some (mw, mh)) (hsr : w.stateRes = .Walking target)
    (hwp : w.winPos = .At p)
    (hle : vlen (asVec2 (target - p)) ≤
      vlen (vsmul (calculate_movement_speed mw mh (BonnieState.Walking target) * (delta : ℝ))
        (vnormalize (asVec2 (target - p))))) :
    handle_movement delta w = some { w with winPos := .At target } := by
  unfold handle_movement
  simp only [hmon, hsr, hwp, posOrZero]
  have hmsnap : movement_step p target
      (calculate_movement_speed mw mh (BonnieState.Walking target)) (delta : ℝ) = target := by
    simp only [movement_step]
    rw [if_pos hle]
  rw [hmsnap]

theorem speed_300_400_walking (v : IVec2) :
    calculate_movement_speed 300 400 (BonnieState.Walking v) = 75 := by
  unfold calculate_movement_speed
  rw [show ((300 ^ 2 + 400 ^ 2) % 2 ^ 32 : ℕ) = 250000 from by norm_num]
  rw [show ((250000 : ℕ) : ℝ) = 250000 from by norm_num]
  rw [sqrt_eq_of_sq (show (0 : ℝ) ≤ 500 from by norm_num) (by norm_num)]
  norm_num

/-- C4 (counterexample): at the claim's own scenario — window at
`(500, 500)` walking to `(510, 500)` with a 20-unit step (300x400
monitor, walking speed 75, delta 4/15) — the tick snaps exactly to the
target, but the gate is NOT unblocked-and-finished: `handle_movement`
never touches the machine, whose remaining duration stays 2, not 0. -/
theorem C4_arrival_does_not_finish_gate :
    handle_movement (4 / 15)
        { baseW with
          bonnie := .Walking (510, 500), stateRes := .Walking (510, 500),
          machine := ⟨⟨3, 1⟩, true⟩ } =
      some { baseW with
             bonnie := .Walking (510, 500), stateRes := .Walking (510, 500),
             machine := ⟨⟨3, 1⟩, true⟩, winPos := .At (510, 500) } ∧
    (⟨⟨3, 1⟩, true⟩ : StateMachine).timer.remaining ≠ 0 := by
  constructor
  · have hsub : ((510, 500) : IVec2) - (500, 500) = (10, 0) := by decide
    have hvec : asVec2 ((10, 0) : IVec2) = ((10 : ℝ), 0) := by norm_num [asVec2]
    have hlen10 : vlen ((10 : ℝ), 0) = 10 := vlen_axis 10 (by norm_num)
    have hnorm : vnormalize ((10 : ℝ), 0) = (1, 0) := by
      unfold vnormalize
      rw [hlen10]
      norm_num
    have hdt : (((4 : ℚ) / 15 : ℚ) : ℝ) = 4 / 15 := by norm_num
    have hsmul : vsmul (75 * (((4 : ℚ) / 15 : ℚ) : ℝ)) ((1 : ℝ), 0) = (20, 0) := by
      unfold vsmul
      rw [hdt]
      norm_num
    have hlen20 : vlen ((20 : ℝ), 0) = 20 := vlen_axis 20 (by norm_num)
    have hle : vlen (asVec2 (((510, 500) : IVec2) - (500, 500))) ≤
        vlen (vsmul (calculate_movement_speed 300 400 (BonnieState.Walking (510, 500)) *
            (((4 : ℚ) / 15 : ℚ) : ℝ))
          (vnormalize (asVec2 (((510, 500) : IVec2) - (500, 500))))) := by
      rw [hsub, hvec, speed_300_400_walking, hnorm, hsmul, hlen10, hlen20]
      norm_num
    exact handle_movement_snaps (4 / 15) rfl rfl rfl hle
  · norm_num [Timer.remaining]

/-- C4 (amended): while the active state is `Walking target`, when the
remaining distance is at most this frame's step length, a single movement
tick sets the window position exactly to the target; the movement system
never modifies the gate — any result of `handle_movement` keeps the
machine unchanged, and the transition instead fires when the randomized
timer next expires. -/
theorem C4_snap_exact_gate_untouched (w : World) (delta : ℚ) (mw mh : Nat)
    (target p : IVec2)
    (hmon : w.monitor = some (mw, mh)) (hsr : w.stateRes = .Walking target)
    (hwp : w.winPos = .At p)
    (hle : vlen (asVec2 (target - p)) ≤
      vlen (vsmul (calculate_movement_speed mw mh (BonnieState.Walking target) * (delta : ℝ))
        (vnormalize (asVec2 (target - p))))) :
    handle_movement delta w = some { w with winPos := .At target } ∧
    ∀ w', handle_movement delta w = some w' → w'.machine = w.machine := by
  have hstep := handle_movement_snaps delta hmon hsr hwp hle
  refine ⟨hstep, fun w' hw' => ?_⟩
  rw [hstep] at hw'
  cases Option.some.inj hw'
  rfl

/-- Witness for the C4 amendment: from `(0, 0)` walking to `(10, 0)` with
the same 20-unit step, the tick snaps to the target and the machine is
unchanged. -/
theorem C4_snap_exact_gate_untouched_witness :
    handle_movement (4 / 15)
        { baseW with
          bonnie := .Walking (10, 0), stateRes := .Walking (10, 0),
          winPos := .At (0, 0) } =
      some { baseW with
             bonnie := .Walking (10, 0), stateRes := .Walking (10, 0),
             winPos := .At (10, 0) } ∧
    ∀ w', handle_movement (4 / 15)
        { baseW with
          bonnie := .Walking (10, 0), stateRes := .Walking (10, 0),
          winPos := .At (0, 0) } = some w' →
      w'.machine = ({ baseW with
          bonnie := .Walking (10, 0), stateRes := .Walking (10, 0),
          winPos := .At (0, 0) } : World).machine := by
  have hsub : ((10, 0) : IVec2) - (0, 0) = (10, 0) := by decide
  have hvec : asVec2 ((10, 0) : IVec2) = ((10 : ℝ), 0) := by norm_num [asVec2]
  have hlen10 : vlen ((10 : ℝ), 0) = 10 := vlen_axis 10 (by norm_num)
  have hnorm : vnormalize ((10 : ℝ), 0) = (1, 0) := by
    unfold vnormalize
    rw [hlen10]
    norm_num
  have hdt : (((4 : ℚ) / 15 : ℚ) : ℝ) = 4 / 15 := by norm_num
  have hsmul : vsmul (75 * (((4 : ℚ) / 15 : ℚ) : ℝ)) ((1 : ℝ), 0) = (20, 0) := by
    unfold vsmul
    rw [hdt]
    norm_num
  have hlen20 : vlen ((20 : ℝ), 0) = 20 := vlen_axis 20 (by norm_num)
  have hle : vlen (asVec2 (((10, 0) : IVec2) - (0, 0))) ≤
      vlen (vsmul (calculate_movement_speed 300 400 (BonnieState.Walking (10, 0)) *
          (((4 : ℚ) / 15 : ℚ) : ℝ))
        (vnormalize (asVec2 (((10, 0) : IVec2) - (0, 0))))) := by
    rw [hsub, hvec, speed_300_400_walking, hnorm, hsmul, hlen10, hlen20]
    norm_num
  exact C4_snap_exact_gate_untouched _ (4 / 15) 300 400 (10, 0) (0, 0) rfl rfl rfl hle

end BonnieSpec
